import Mathlib

/-
Shallow embedding of the subscription-based social-media monitoring backend
(models.js / twitter-service.js / server.ts). External collaborators (the
remote social-media API and the database driver) are modelled as explicit
inputs: the resolved account and raw timeline are oracle arguments, the
database is an explicit state record, and writes performed by concurrent
actors between an existence check and the following insert are modelled by
an interference argument.
-/

namespace SubRecon

/-- Lowercases a string, modelling JS toLowerCase and the i regex flag. -/
def lowerStr (s : String) : String := String.mk (s.data.map Char.toLower)

/-- Case-insensitive substring test on strings; models testing one literal
keyword of the case-insensitive union regex built by getUserTweets. -/
def containsCI (keyword text : String) : Bool :=
  decide ((lowerStr keyword).data <:+: (lowerStr text).data)

/-- Case-sensitive substring test; models the JS String.includes call. -/
def containsSub (needle text : String) : Bool :=
  decide (needle.data <:+: text.data)

/-- Models keywordRegex.test(text) where keywordRegex is the union of the
keywords joined by the alternation bar with the i flag. -/
def matchesAnyKeyword (keywords : List String) (text : String) : Bool :=
  keywords.any (fun k => containsCI k text)

/-- Drops leading and trailing whitespace, modelling the JS trim. -/
def trimChars (l : List Char) : List Char :=
  ((l.dropWhile Char.isWhitespace).reverse.dropWhile Char.isWhitespace).reverse

/-- Models the mongoose lowercase plus trim setters on username fields. -/
def normalizeUsername (s : String) : String := lowerStr (String.mk (trimChars s.data))

/-- One entry of referenced_tweets on a fetched tweet. -/
structure RefTweet where
  type : String
  id : String
deriving DecidableEq

/-- The public_metrics block of a fetched tweet. -/
structure PublicMetrics where
  retweet_count : Nat
  like_count : Nat
  reply_count : Nat
  quote_count : Nat
deriving DecidableEq

/-- One url entity of a fetched tweet. -/
structure UrlEntity where
  expanded_url : String
deriving DecidableEq

/-- A remote tweet as returned by the source timeline call (TweetData). -/
structure Tweet where
  id : String
  text : String
  author_id : String
  created_at : Nat
  public_metrics : PublicMetrics
  urls : List UrlEntity
  hashtags : List String
  mentions : List String
  referenced_tweets : List RefTweet
deriving DecidableEq

/-- The resolved target account (UserV2 fields used by the service). -/
structure TargetUser where
  id : String
  name : String
  profile_image_url : String
deriving DecidableEq

/-- A Subscription document (SubscriptionSchema). -/
structure Subscription where
  id : Nat
  userId : Nat
  targetUsername : String
  isActive : Bool
  checkInterval : Nat
  lastChecked : Nat
  keywords : List String
  includeReplies : Bool
  includeRetweets : Bool
deriving DecidableEq

/-- The engagement block of a stored Post. -/
structure Engagement where
  likes : Nat
  retweets : Nat
  replies : Nat
  quotes : Nat
deriving DecidableEq

/-- A Post document (PostSchema). -/
structure Post where
  tweetId : String
  subscriptionId : Nat
  userId : Nat
  content : String
  authorUsername : String
  authorName : String
  authorAvatar : String
  engagement : Engagement
  mediaUrls : List String
  tweetCreatedAt : Nat
  tweetUrl : String
  isReply : Bool
  isRetweet : Bool
  retweetedFrom : Option String
  hashtags : List String
  mentions : List String
  isRead : Bool
deriving DecidableEq

/-- Error taxonomy of the reconciliation engine. -/
inductive TwError
  | accountNotFound (username : String)
  | rateLimited
  | sourceUnavailable (msg : String)
  | duplicateKey (tweetId : String)
deriving DecidableEq

/-- The database state: the Subscription and Post collections. -/
structure DbState where
  subs : List Subscription
  posts : List Post
deriving DecidableEq

/-- Error messages as rendered by the service layer. -/
def errMsg : TwError → String
  | .accountNotFound u => "User @" ++ u ++ " not found"
  | .rateLimited => "Rate limit exceeded. Please try again later."
  | .sourceUnavailable m => "Failed to fetch tweets: " ++ m
  | .duplicateKey tid => "E11000 duplicate key error: " ++ tid

/-- The exclude list sent to the remote API by getUserTweets. -/
def excludeTypes (includeReplies includeRetweets : Bool) : List String :=
  (if includeReplies then [] else ["replies"]) ++
    (if includeRetweets then [] else ["retweets"])

/-- Client-side keyword filtering applied by getUserTweets to the raw
timeline when the keyword list is non-empty. -/
def keywordFilter (keywords : List String) (tweets : List Tweet) : List Tweet :=
  if 0 < keywords.length then
    tweets.filter (fun t => matchesAnyKeyword keywords t.text)
  else tweets

/-- getUserTweets: the raw timeline is an oracle argument (the remote API
response, or its failure); the keyword filter is applied client-side. -/
def getUserTweets (timeline : Except TwError (List Tweet)) (keywords : List String) :
    Except TwError (List Tweet) :=
  match timeline with
  | .error e => .error e
  | .ok tweets => .ok (keywordFilter keywords tweets)

/-- extractMediaUrls: keep expanded urls containing a known media host. -/
def extractMediaUrls (t : Tweet) : List String :=
  (t.urls.filter (fun u =>
    containsSub "pic.twitter.com" u.expanded_url ||
      containsSub "video.twitter.com" u.expanded_url)).map (fun u => u.expanded_url)

/-- formatTweetUrl. -/
def formatTweetUrl (username tweetId : String) : String :=
  "https://twitter.com/" ++ username ++ "/status/" ++ tweetId

/-- The Post document built for one fetched tweet inside
processSubscriptionTweets, including the lowercase setter applied by the
Post schema to authorUsername on save. -/
def mkPost (sub : Subscription) (tu : TargetUser) (t : Tweet) : Post :=
  { tweetId := t.id
    subscriptionId := sub.id
    userId := sub.userId
    content := t.text
    authorUsername := normalizeUsername sub.targetUsername
    authorName := tu.name
    authorAvatar := tu.profile_image_url
    engagement := ⟨t.public_metrics.like_count, t.public_metrics.retweet_count,
                   t.public_metrics.reply_count, t.public_metrics.quote_count⟩
    mediaUrls := extractMediaUrls t
    tweetCreatedAt := t.created_at
    tweetUrl := formatTweetUrl sub.targetUsername t.id
    isReply := t.referenced_tweets.any (fun r => r.type == "replied_to")
    isRetweet := t.referenced_tweets.any (fun r => r.type == "retweeted")
    retweetedFrom :=
      if t.referenced_tweets.any (fun r => r.type == "retweeted") then
        (t.referenced_tweets.find? (fun r => r.type == "retweeted")).map (fun r => r.id)
      else none
    hashtags := t.hashtags
    mentions := t.mentions
    isRead := false }

/-- Post.findOne on the tweetId field. -/
def findPostByTweetId (posts : List Post) (tid : String) : Option Post :=
  posts.find? (fun p => p.tweetId == tid)

/-- post.save: the storage layer enforces the unique index on tweetId, so
an insert of an already-present remote id fails with DuplicateKey. -/
def savePost (posts : List Post) (p : Post) : Except TwError (List Post) :=
  match findPostByTweetId posts p.tweetId with
  | some _ => .error (.duplicateKey p.tweetId)
  | none => .ok (posts ++ [p])

/-- Result of the per-tweet loop: the Post collection after the loop, the
running new-tweet count, and the error that aborted the loop, if any. -/
structure LoopResult where
  posts : List Post
  count : Nat
  err : Option TwError
deriving DecidableEq

/-- The per-tweet loop of processSubscriptionTweets. The interference
argument lists, per iteration, the posts inserted by concurrent actors
between the existence check and the save of that iteration; a failing save
aborts the loop with the error, leaving earlier saves in place. -/
def processTweetsLoop (sub : Subscription) (tu : TargetUser) :
    List Tweet → List (List Post) → List Post → Nat → LoopResult
  | [], _, posts, count => ⟨posts, count, none⟩
  | t :: ts, interf, posts, count =>
    match findPostByTweetId posts t.id with
    | some _ => processTweetsLoop sub tu ts interf.tail (posts ++ interf.headD []) count
    | none =>
      match savePost (posts ++ interf.headD []) (mkPost sub tu t) with
      | .error e => ⟨posts ++ interf.headD [], count, some e⟩
      | .ok posts2 => processTweetsLoop sub tu ts interf.tail posts2 (count + 1)

/-- Subscription.findByIdAndUpdate setting lastChecked. -/
def updateLastChecked (subs : List Subscription) (sid now : Nat) : List Subscription :=
  subs.map (fun s => if s.id == sid then { s with lastChecked := now } else s)

/-- Result of processSubscriptionTweets: the database state when the call
returns or throws, the returned new-tweet count, and the thrown error. -/
structure ReconcileResult where
  state : DbState
  newTweetsCount : Nat
  err : Option TwError
deriving DecidableEq

/-- processSubscriptionTweets. Account resolution and the raw timeline are
oracle arguments standing for the remote API; now is the clock reading
taken when the checkpoint is written. Any error is rethrown; only on full
success is lastChecked advanced to now. -/
def processSubscriptionTweets (sub : Subscription) (now : Nat)
    (resolveResult : Except TwError TargetUser)
    (timelineResult : Except TwError (List Tweet))
    (interf : List (List Post)) (st : DbState) : ReconcileResult :=
  match resolveResult with
  | .error e => ⟨st, 0, some e⟩
  | .ok tu =>
    match getUserTweets timelineResult sub.keywords with
    | .error e => ⟨st, 0, some e⟩
    | .ok tweets =>
      let r := processTweetsLoop sub tu tweets interf st.posts 0
      match r.err with
      | some e => ⟨⟨st.subs, r.posts⟩, 0, some e⟩
      | none => ⟨⟨updateLastChecked st.subs sub.id now, r.posts⟩, r.count, none⟩

/-- Per-subscription oracle for a batch run: the outcomes the remote API
and the concurrent environment would produce for that subscription. -/
structure Oracle where
  resolveResult : Except TwError TargetUser
  timelineResult : Except TwError (List Tweet)
  interf : List (List Post)

/-- Result of processAllUserSubscriptions. -/
structure BatchResult where
  state : DbState
  processed : Nat
  newTweets : Nat
  errors : List String

/-- The due-for-update test of processAllUserSubscriptions. -/
def dueForCheck (now : Nat) (s : Subscription) : Bool :=
  decide (s.checkInterval * 60 * 1000 ≤ now - s.lastChecked)

/-- The per-subscription loop of processAllUserSubscriptions: a throwing
reconciliation contributes one message to the error list and the loop
continues with the next subscription. -/
def processAllLoop (now : Nat) :
    List Subscription → List Oracle → DbState → Nat → Nat → List String → BatchResult
  | [], _, st, processed, newTweets, errs => ⟨st, processed, newTweets, errs⟩
  | sub :: rest, oracles, st, processed, newTweets, errs =>
    if dueForCheck now sub then
      let o := oracles.headD ⟨.error .rateLimited, .error .rateLimited, []⟩
      let r := processSubscriptionTweets sub now o.resolveResult o.timelineResult o.interf st
      match r.err with
      | none =>
        processAllLoop now rest oracles.tail r.state (processed + 1)
          (newTweets + r.newTweetsCount) errs
      | some e =>
        processAllLoop now rest oracles.tail r.state processed newTweets
          (errs ++ [sub.targetUsername ++ ": " ++ errMsg e])
    else
      processAllLoop now rest oracles.tail st processed newTweets errs

/-- processAllUserSubscriptions: load the active subscriptions of the user
and run the loop over that snapshot. -/
def processAllUserSubscriptions (uid now : Nat) (oracles : List Oracle) (st : DbState) :
    BatchResult :=
  processAllLoop now (st.subs.filter (fun s => s.userId == uid && s.isActive)) oracles st 0 0 []

/-- The request body of the subscription-creation route. -/
structure CreateReq where
  targetUsername : String
  checkInterval : Option Nat
  keywords : Option (List String)
  includeReplies : Option Bool
  includeRetweets : Option Bool
deriving DecidableEq

/-- The optional checkInterval validator of the creation route. -/
def validCheckInterval : Option Nat → Bool
  | none => true
  | some ci => decide (15 ≤ ci) && decide (ci ≤ 1440)

/-- Reactivation of an existing soft-deleted subscription: the active flag
is set back and the filters and checkpoint are reset to the new values. -/
def reactivate (now ci : Nat) (kw : List String) (ir irt : Bool) (s : Subscription) :
    Subscription :=
  { s with isActive := true, checkInterval := ci, keywords := kw,
           includeReplies := ir, includeRetweets := irt, lastChecked := now }

/-- The subscription-creation route: validate, look for an existing
subscription of the same user and target, then fail, reactivate, or insert. -/
def createSubscription (st : DbState) (uid newId now : Nat) (req : CreateReq) :
    Except String DbState :=
  if req.targetUsername = "" then .error "Validation failed"
  else if validCheckInterval req.checkInterval = false then .error "Validation failed"
  else
    match st.subs.find? (fun s =>
        s.userId == uid && s.targetUsername == normalizeUsername req.targetUsername) with
    | some ex =>
      if ex.isActive then .error "Already subscribed to this user"
      else .ok ⟨st.subs.map (fun s =>
          if s.id == ex.id then
            reactivate now (req.checkInterval.getD 60) (req.keywords.getD [])
              (req.includeReplies.getD false) (req.includeRetweets.getD false) s
          else s), st.posts⟩
    | none =>
      .ok ⟨st.subs ++ [⟨newId, uid, normalizeUsername req.targetUsername, true,
        req.checkInterval.getD 60, now, req.keywords.getD [],
        req.includeReplies.getD false, req.includeRetweets.getD false⟩], st.posts⟩

/-- The update applied by the deletion route to the matched document. -/
def deactivateIf (uid sid : Nat) (s : Subscription) : Subscription :=
  if s.id == sid && s.userId == uid then { s with isActive := false } else s

/-- The subscription-deletion route: findOneAndUpdate on id and owner,
setting the active flag to false; no document is ever removed. -/
def deleteSubscription (st : DbState) (uid sid : Nat) : Except String DbState :=
  match st.subs.find? (fun s => s.id == sid && s.userId == uid) with
  | none => .error "Subscription not found"
  | some _ => .ok ⟨st.subs.map (deactivateIf uid sid), st.posts⟩

/-- Stored Twitter credentials of a user. -/
structure TwitterCredentials where
  apiKey : String
  apiSecret : String
  accessToken : String
  accessTokenSecret : String
deriving DecidableEq

/-- A User document (UserSchema). -/
structure User where
  id : Nat
  email : String
  password : String
  isActive : Bool
  twitterUsername : Option String
  twitterCredentials : Option TwitterCredentials
deriving DecidableEq

/-- A JSON value, for modelling the mongoose toJSON output. -/
inductive JVal
  | str (s : String)
  | bool (b : Bool)
  | num (n : Nat)
  | obj (fields : List (String × JVal))
  | null

/-- JSON rendering of the credentials block. -/
def credsToJVal (c : TwitterCredentials) : JVal :=
  .obj [("apiKey", .str c.apiKey), ("apiSecret", .str c.apiSecret),
        ("accessToken", .str c.accessToken), ("accessTokenSecret", .str c.accessTokenSecret)]

/-- JSON rendering of an optional field. -/
def optionToJVal {α : Type} (f : α → JVal) : Option α → JVal
  | some a => f a
  | none => .null

/-- The plain object a User document converts to before the toJSON
transform runs: every schema field is present, secrets included. -/
def userToObj (u : User) : List (String × JVal) :=
  [("_id", .num u.id),
   ("email", .str u.email),
   ("password", .str u.password),
   ("isActive", .bool u.isActive),
   ("twitterUsername", optionToJVal JVal.str u.twitterUsername),
   ("twitterCredentials", optionToJVal credsToJVal u.twitterCredentials)]

/-- The toJSON transform of the User schema: it deletes the password and
twitterCredentials keys from the converted object. -/
def toJSONTransform (obj : List (String × JVal)) : List (String × JVal) :=
  obj.filter (fun kv => !(kv.1 == "password") && !(kv.1 == "twitterCredentials"))

/-- The public JSON serialization of a User document. -/
def userToJSON (u : User) : List (String × JVal) :=
  toJSONTransform (userToObj u)

/-- Two subscriptions collide when they share the owning user and the
target account; the compound index forbids this. -/
def subKeyClash (a b : Subscription) : Prop :=
  a.userId = b.userId ∧ a.targetUsername = b.targetUsername

instance (a b : Subscription) : Decidable (subKeyClash a b) :=
  inferInstanceAs (Decidable (_ ∧ _))

/-- At most one subscription per user and target pair. -/
def SubsUnique (st : DbState) : Prop :=
  st.subs.Pairwise (fun a b => ¬ subKeyClash a b)

instance (st : DbState) : Decidable (SubsUnique st) :=
  inferInstanceAs (Decidable (List.Pairwise _ _))

/-- Every stored checkInterval lies within the schema bounds. -/
def IntervalBounded (st : DbState) : Prop :=
  ∀ s ∈ st.subs, 15 ≤ s.checkInterval ∧ s.checkInterval ≤ 1440

/-- Database states reachable from the empty store through the modelled
operations: subscription creation and soft deletion, one reconciliation
run (with arbitrary oracle outcomes and interference), and a batch run. -/
inductive Reachable : DbState → Prop
  | init : Reachable ⟨[], []⟩
  | create (st st2 : DbState) (uid newId now : Nat) (req : CreateReq) :
      Reachable st → createSubscription st uid newId now req = .ok st2 → Reachable st2
  | softDelete (st st2 : DbState) (uid sid : Nat) :
      Reachable st → deleteSubscription st uid sid = .ok st2 → Reachable st2
  | reconcile (st : DbState) (sub : Subscription) (now : Nat)
      (rr : Except TwError TargetUser) (tr : Except TwError (List Tweet))
      (interf : List (List Post)) :
      Reachable st → Reachable (processSubscriptionTweets sub now rr tr interf st).state
  | batch (st : DbState) (uid now : Nat) (oracles : List Oracle) :
      Reachable st → Reachable (processAllUserSubscriptions uid now oracles st).state

/-- Sample subscription used by concrete evaluations. -/
def sampleSub : Subscription := ⟨1, 1, "acme", true, 60, 0, [], false, false⟩

/-- Sample resolved target account. -/
def sampleTU : TargetUser := ⟨"100", "Acme Inc", "avatar.png"⟩

/-- Sample plain tweet. -/
def sampleTweet : Tweet := ⟨"t1", "hello world", "100", 5, ⟨1, 2, 3, 4⟩, [], [], [], []⟩

/-- Sample tweet that is a reply. -/
def replyTweet : Tweet :=
  ⟨"r1", "a reply", "100", 6, ⟨0, 0, 0, 0⟩, [], [], [], [⟨"replied_to", "900"⟩]⟩

/-- Sample tweet that is a retweet. -/
def retweetTweet : Tweet :=
  ⟨"w1", "a retweet", "200", 7, ⟨0, 0, 0, 0⟩, [], [], [], [⟨"retweeted", "901"⟩]⟩

/-- Sample tweet whose text matches the launch keyword in capitals. -/
def launchTweet : Tweet := ⟨"t2", "Big LAUNCH today", "100", 8, ⟨0, 0, 0, 0⟩, [], [], [], []⟩

/-- Sample database state holding only the sample subscription. -/
def sampleState : DbState := ⟨[sampleSub], []⟩

/-- Second sample subscription of the same user. -/
def sampleSub2 : Subscription := ⟨2, 1, "beta", true, 60, 0, [], false, false⟩

/-- Third sample subscription of the same user. -/
def sampleSub3 : Subscription := ⟨3, 1, "gamma", true, 60, 0, [], false, false⟩

/-- A soft-deleted subscription of the same user. -/
def inactiveSub : Subscription := ⟨2, 1, "beta", false, 60, 0, [], false, false⟩

/-- Sample state holding one active and one soft-deleted subscription. -/
def sampleStateMixed : DbState := ⟨[sampleSub, inactiveSub], []⟩

/-- A successful save appends exactly the new post. -/
theorem savePost_ok {l l2 : List Post} {p : Post} (h : savePost l p = .ok l2) :
    l2 = l ++ [p] := by
  unfold savePost at h
  cases hf : findPostByTweetId l p.tweetId with
  | some q => rw [hf] at h; simp at h
  | none => rw [hf] at h; injection h with h; exact h.symm

/-- A save against a store without the remote id succeeds. -/
theorem savePost_none {l : List Post} {p : Post}
    (h : findPostByTweetId l p.tweetId = none) : savePost l p = .ok (l ++ [p]) := by
  unfold savePost
  rw [h]

/-- Step equation of the loop when the tweet is already stored. -/
theorem loop_cons_found (sub : Subscription) (tu : TargetUser) (t : Tweet)
    (ts : List Tweet) (interf : List (List Post)) (posts : List Post) (c : Nat)
    {q : Post} (hfind : findPostByTweetId posts t.id = some q) :
    processTweetsLoop sub tu (t :: ts) interf posts c =
      processTweetsLoop sub tu ts interf.tail (posts ++ interf.headD []) c := by
  simp only [processTweetsLoop, hfind]

/-- Step equation of the loop when the tweet is new and its save works. -/
theorem loop_cons_new (sub : Subscription) (tu : TargetUser) (t : Tweet)
    (ts : List Tweet) (interf : List (List Post)) (posts : List Post) (c : Nat)
    {posts2 : List Post} (hfind : findPostByTweetId posts t.id = none)
    (hsave : savePost (posts ++ interf.headD []) (mkPost sub tu t) = .ok posts2) :
    processTweetsLoop sub tu (t :: ts) interf posts c =
      processTweetsLoop sub tu ts interf.tail posts2 (c + 1) := by
  simp only [processTweetsLoop, hfind, hsave]

/-- Step equation of the loop when the save is rejected. -/
theorem loop_cons_fail (sub : Subscription) (tu : TargetUser) (t : Tweet)
    (ts : List Tweet) (interf : List (List Post)) (posts : List Post) (c : Nat)
    {e : TwError} (hfind : findPostByTweetId posts t.id = none)
    (hsave : savePost (posts ++ interf.headD []) (mkPost sub tu t) = .error e) :
    processTweetsLoop sub tu (t :: ts) interf posts c =
      ⟨posts ++ interf.headD [], c, some e⟩ := by
  simp only [processTweetsLoop, hfind, hsave]

/-- The per-tweet loop only appends to the Post collection. -/
theorem loop_posts_extend (sub : Subscription) (tu : TargetUser) :
    ∀ (ts : List Tweet) (interf : List (List Post)) (posts : List Post) (c : Nat),
      ∃ rest, (processTweetsLoop sub tu ts interf posts c).posts = posts ++ rest := by
  intro ts
  induction ts with
  | nil => intro interf posts c; exact ⟨[], by simp [processTweetsLoop]⟩
  | cons t ts ih =>
    intro interf posts c
    cases hfind : findPostByTweetId posts t.id with
    | some q =>
      rw [loop_cons_found sub tu t ts interf posts c hfind]
      obtain ⟨rest, hrest⟩ := ih interf.tail (posts ++ interf.headD []) c
      exact ⟨interf.headD [] ++ rest, by rw [hrest, List.append_assoc]⟩
    | none =>
      cases hsave : savePost (posts ++ interf.headD []) (mkPost sub tu t) with
      | error e =>
        rw [loop_cons_fail sub tu t ts interf posts c hfind hsave]
        exact ⟨interf.headD [], rfl⟩
      | ok posts2 =>
        rw [loop_cons_new sub tu t ts interf posts c hfind hsave]
        obtain ⟨rest, hrest⟩ := ih interf.tail posts2 (c + 1)
        refine ⟨interf.headD [] ++ [mkPost sub tu t] ++ rest, ?_⟩
        rw [hrest, savePost_ok hsave]
        simp [List.append_assoc]

/-- Posts already stored stay stored across the per-tweet loop. -/
theorem mem_loop_posts (sub : Subscription) (tu : TargetUser) {p : Post}
    (ts : List Tweet) (interf : List (List Post)) (posts : List Post) (c : Nat)
    (hp : p ∈ posts) : p ∈ (processTweetsLoop sub tu ts interf posts c).posts := by
  obtain ⟨rest, hr⟩ := loop_posts_extend sub tu ts interf posts c
  rw [hr]
  exact List.mem_append_left rest hp

/-- After a loop that did not throw, every processed tweet has a stored
post carrying its remote id. -/
theorem loop_ids_present (sub : Subscription) (tu : TargetUser) :
    ∀ (ts : List Tweet) (interf : List (List Post)) (posts : List Post) (c : Nat),
      (processTweetsLoop sub tu ts interf posts c).err = none →
      ∀ t ∈ ts, ∃ q ∈ (processTweetsLoop sub tu ts interf posts c).posts, q.tweetId = t.id := by
  intro ts
  induction ts with
  | nil => intro _ _ _ _ t ht; simp at ht
  | cons t0 ts ih =>
    intro interf posts c herr t ht
    cases hfind : findPostByTweetId posts t0.id with
    | some q =>
      rw [loop_cons_found sub tu t0 ts interf posts c hfind] at herr ⊢
      rcases List.mem_cons.mp ht with rfl | hmem
      · have hq := List.find?_some hfind
        have hqmem := List.mem_of_find?_eq_some hfind
        refine ⟨q, mem_loop_posts sub tu ts interf.tail (posts ++ interf.headD []) c
          (List.mem_append_left _ hqmem), ?_⟩
        simpa using hq
      · exact ih interf.tail (posts ++ interf.headD []) c herr t hmem
    | none =>
      cases hsave : savePost (posts ++ interf.headD []) (mkPost sub tu t0) with
      | error e =>
        rw [loop_cons_fail sub tu t0 ts interf posts c hfind hsave] at herr
        simp at herr
      | ok posts2 =>
        rw [loop_cons_new sub tu t0 ts interf posts c hfind hsave] at herr ⊢
        rcases List.mem_cons.mp ht with rfl | hmem
        · have h2 := savePost_ok hsave
          have hmem2 : mkPost sub tu t ∈ posts2 := by
            rw [h2]; exact List.mem_append_right _ (List.mem_singleton.mpr rfl)
          exact ⟨mkPost sub tu t,
            mem_loop_posts sub tu ts interf.tail posts2 (c + 1) hmem2, rfl⟩
        · exact ih interf.tail posts2 (c + 1) herr t hmem

/-- A loop in which every tweet is already stored changes nothing and
counts nothing. -/
theorem loop_no_new (sub : Subscription) (tu : TargetUser) :
    ∀ (ts : List Tweet) (posts : List Post) (c : Nat),
      (∀ t ∈ ts, (findPostByTweetId posts t.id).isSome) →
      processTweetsLoop sub tu ts [] posts c = ⟨posts, c, none⟩ := by
  intro ts
  induction ts with
  | nil => intro posts c _; rfl
  | cons t ts ih =>
    intro posts c h
    have ht : (findPostByTweetId posts t.id).isSome :=
      h t (List.mem_cons_self t ts)
    obtain ⟨q, hq⟩ := Option.isSome_iff_exists.mp ht
    rw [loop_cons_found sub tu t ts [] posts c hq]
    simp only [List.tail_nil, List.headD_nil, List.append_nil]
    exact ih posts c (fun t2 h2 => h t2 (List.mem_cons_of_mem t h2))

/-- Without interference the loop never throws. -/
theorem loop_nil_interf_no_err (sub : Subscription) (tu : TargetUser) :
    ∀ (ts : List Tweet) (posts : List Post) (c : Nat),
      (processTweetsLoop sub tu ts [] posts c).err = none := by
  intro ts
  induction ts with
  | nil => intro posts c; rfl
  | cons t ts ih =>
    intro posts c
    cases hfind : findPostByTweetId posts t.id with
    | some q =>
      rw [loop_cons_found sub tu t ts [] posts c hfind]
      simp only [List.tail_nil, List.headD_nil, List.append_nil]
      exact ih posts c
    | none =>
      have hsave : savePost (posts ++ ([] : List (List Post)).headD []) (mkPost sub tu t) =
          .ok (posts ++ [mkPost sub tu t]) := by
        simp only [List.headD_nil, List.append_nil]
        exact savePost_none (p := mkPost sub tu t) hfind
      rw [loop_cons_new sub tu t ts [] posts c hfind hsave]
      simp only [List.tail_nil]
      exact ih (posts ++ [mkPost sub tu t]) (c + 1)

/-- With working remote calls and no interference, a reconciliation run
reduces to the loop result with the checkpoint advanced. -/
theorem reconcile_nil_interf (sub : Subscription) (now : Nat) (tu : TargetUser)
    (tl : List Tweet) (st : DbState) :
    processSubscriptionTweets sub now (.ok tu) (.ok tl) [] st =
      ⟨⟨updateLastChecked st.subs sub.id now,
        (processTweetsLoop sub tu (keywordFilter sub.keywords tl) [] st.posts 0).posts⟩,
       (processTweetsLoop sub tu (keywordFilter sub.keywords tl) [] st.posts 0).count,
       none⟩ := by
  have h := loop_nil_interf_no_err sub tu (keywordFilter sub.keywords tl) st.posts 0
  simp only [processSubscriptionTweets, getUserTweets, h]

/-- C1: idempotence of reconciliation. After a successful run, a second
immediate run against the same remote timeline, with no interference,
skips every fetched tweet through the remote-identifier existence check:
it stores no additional post, leaves the post collection unchanged, and
returns a new-post count of zero. -/
theorem reconcile_idempotent (sub : Subscription) (now1 now2 : Nat) (tu : TargetUser)
    (tl : List Tweet) (st : DbState)
    (hfirst : (processSubscriptionTweets sub now1 (.ok tu) (.ok tl) [] st).err = none) :
    (processSubscriptionTweets sub now2 (.ok tu) (.ok tl) []
        (processSubscriptionTweets sub now1 (.ok tu) (.ok tl) [] st).state).newTweetsCount = 0 ∧
    (processSubscriptionTweets sub now2 (.ok tu) (.ok tl) []
        (processSubscriptionTweets sub now1 (.ok tu) (.ok tl) [] st).state).state.posts =
      (processSubscriptionTweets sub now1 (.ok tu) (.ok tl) [] st).state.posts ∧
    (processSubscriptionTweets sub now2 (.ok tu) (.ok tl) []
        (processSubscriptionTweets sub now1 (.ok tu) (.ok tl) [] st).state).err = none := by
  rw [reconcile_nil_interf sub now1 tu tl st]
  have herr1 := loop_nil_interf_no_err sub tu (keywordFilter sub.keywords tl) st.posts 0
  have hids := loop_ids_present sub tu (keywordFilter sub.keywords tl) [] st.posts 0 herr1
  have hall : ∀ t ∈ keywordFilter sub.keywords tl,
      (findPostByTweetId
        ((processTweetsLoop sub tu (keywordFilter sub.keywords tl) [] st.posts 0).posts)
        t.id).isSome := by
    intro t ht
    obtain ⟨q, hqmem, hqid⟩ := hids t ht
    unfold findPostByTweetId
    rw [List.find?_isSome]
    exact ⟨q, hqmem, by simpa using hqid⟩
  rw [reconcile_nil_interf sub now2 tu tl _]
  rw [loop_no_new sub tu (keywordFilter sub.keywords tl) _ 0 hall]
  exact ⟨rfl, rfl, rfl⟩

/-- Witness for C1 at a concrete subscription, timeline and store. -/
theorem reconcile_idempotent_witness :
    (processSubscriptionTweets sampleSub 10 (.ok sampleTU) (.ok [sampleTweet]) []
        sampleState).err = none ∧
    ((processSubscriptionTweets sampleSub 20 (.ok sampleTU) (.ok [sampleTweet]) []
        (processSubscriptionTweets sampleSub 10 (.ok sampleTU) (.ok [sampleTweet]) []
          sampleState).state).newTweetsCount = 0 ∧
     (processSubscriptionTweets sampleSub 20 (.ok sampleTU) (.ok [sampleTweet]) []
        (processSubscriptionTweets sampleSub 10 (.ok sampleTU) (.ok [sampleTweet]) []
          sampleState).state).state.posts =
       (processSubscriptionTweets sampleSub 10 (.ok sampleTU) (.ok [sampleTweet]) []
          sampleState).state.posts ∧
     (processSubscriptionTweets sampleSub 20 (.ok sampleTU) (.ok [sampleTweet]) []
        (processSubscriptionTweets sampleSub 10 (.ok sampleTU) (.ok [sampleTweet]) []
          sampleState).state).err = none) :=
  ⟨by decide, reconcile_idempotent sampleSub 10 20 sampleTU [sampleTweet] sampleState (by decide)⟩

/-- A failed account resolution is rethrown and changes nothing. -/
theorem reconcile_resolve_err (sub : Subscription) (now : Nat) (e : TwError)
    (tr : Except TwError (List Tweet)) (interf : List (List Post)) (st : DbState) :
    processSubscriptionTweets sub now (.error e) tr interf st = ⟨st, 0, some e⟩ := rfl

/-- A failed timeline fetch is rethrown and changes nothing. -/
theorem reconcile_fetch_err (sub : Subscription) (now : Nat) (tu : TargetUser)
    (e : TwError) (interf : List (List Post)) (st : DbState) :
    processSubscriptionTweets sub now (.ok tu) (.error e) interf st = ⟨st, 0, some e⟩ := rfl

/-- When the per-tweet loop throws, the run rethrows the error, keeps the
post rows stored so far, and leaves the subscriptions alone. -/
theorem reconcile_loop_err (sub : Subscription) (now : Nat) (tu : TargetUser)
    (tl : List Tweet) (interf : List (List Post)) (st : DbState) {e : TwError}
    (h : (processTweetsLoop sub tu (keywordFilter sub.keywords tl) interf st.posts 0).err =
      some e) :
    processSubscriptionTweets sub now (.ok tu) (.ok tl) interf st =
      ⟨⟨st.subs,
        (processTweetsLoop sub tu (keywordFilter sub.keywords tl) interf st.posts 0).posts⟩,
       0, some e⟩ := by
  simp only [processSubscriptionTweets, getUserTweets, h]

/-- When the per-tweet loop completes, the run returns its count and
advances the checkpoint. -/
theorem reconcile_loop_ok (sub : Subscription) (now : Nat) (tu : TargetUser)
    (tl : List Tweet) (interf : List (List Post)) (st : DbState)
    (h : (processTweetsLoop sub tu (keywordFilter sub.keywords tl) interf st.posts 0).err =
      none) :
    processSubscriptionTweets sub now (.ok tu) (.ok tl) interf st =
      ⟨⟨updateLastChecked st.subs sub.id now,
        (processTweetsLoop sub tu (keywordFilter sub.keywords tl) interf st.posts 0).posts⟩,
       (processTweetsLoop sub tu (keywordFilter sub.keywords tl) interf st.posts 0).count,
       none⟩ := by
  simp only [processSubscriptionTweets, getUserTweets, h]

/-- A subscription record matched by id after the checkpoint update
carries the new clock reading. -/
theorem mem_updateLastChecked {subs : List Subscription} {sid now : Nat}
    {s : Subscription} (hs : s ∈ updateLastChecked subs sid now) (hid : s.id = sid) :
    s.lastChecked = now := by
  unfold updateLastChecked at hs
  obtain ⟨s0, _, heq⟩ := List.mem_map.mp hs
  by_cases h : (s0.id == sid) = true
  · rw [if_pos h] at heq
    rw [← heq]
  · rw [if_neg h] at heq
    subst heq
    exact absurd (beq_iff_eq.mpr hid) h

/-- C2: checkpoint update discipline. On a successful run the checkpoint
of the subscription is set to the clock reading now, which under forward
clock motion is at least the prior checkpoint and strictly above the
creation time of every fetched tweet; on any failure the subscription
collection is untouched while posts stored before the failure remain. -/
theorem checkpoint_discipline (sub : Subscription) (now : Nat)
    (rr : Except TwError TargetUser) (tr : Except TwError (List Tweet))
    (interf : List (List Post)) (st : DbState)
    (hnow : sub.lastChecked ≤ now)
    (htl : ∀ tl, tr = .ok tl → ∀ t ∈ tl, t.created_at < now) :
    ((processSubscriptionTweets sub now rr tr interf st).err = none →
      ∀ s ∈ (processSubscriptionTweets sub now rr tr interf st).state.subs,
        s.id = sub.id →
          s.lastChecked = now ∧ sub.lastChecked ≤ s.lastChecked ∧
          ∀ tl, tr = .ok tl → ∀ t ∈ tl, t.created_at < s.lastChecked) ∧
    (∀ e, (processSubscriptionTweets sub now rr tr interf st).err = some e →
      (processSubscriptionTweets sub now rr tr interf st).state.subs = st.subs ∧
      ∀ p ∈ st.posts, p ∈ (processSubscriptionTweets sub now rr tr interf st).state.posts) := by
  cases rr with
  | error e =>
    rw [reconcile_resolve_err sub now e tr interf st]
    exact ⟨fun h => by simp at h, fun e2 _ => ⟨rfl, fun p hp => hp⟩⟩
  | ok tu =>
    cases tr with
    | error e =>
      rw [reconcile_fetch_err sub now tu e interf st]
      exact ⟨fun h => by simp at h, fun e2 _ => ⟨rfl, fun p hp => hp⟩⟩
    | ok tl =>
      cases herr : (processTweetsLoop sub tu (keywordFilter sub.keywords tl) interf
          st.posts 0).err with
      | some e =>
        rw [reconcile_loop_err sub now tu tl interf st herr]
        refine ⟨fun h => by simp at h, fun e2 _ => ⟨rfl, fun p hp => ?_⟩⟩
        obtain ⟨rest, hrest⟩ :=
          loop_posts_extend sub tu (keywordFilter sub.keywords tl) interf st.posts 0
        simpa [hrest] using List.mem_append_left rest hp
      | none =>
        rw [reconcile_loop_ok sub now tu tl interf st herr]
        refine ⟨fun _ s hs hid => ?_, fun e2 h => by simp at h⟩
        have hlc := mem_updateLastChecked hs hid
        refine ⟨hlc, by rw [hlc]; exact hnow, fun tl2 htl2 t ht => ?_⟩
        rw [hlc]
        injection htl2 with htl2
        exact htl tl2 (by rw [htl2]) t ht

/-- Witness for C2 at a concrete subscription, timeline and store. -/
theorem checkpoint_discipline_witness :
    (sampleSub.lastChecked ≤ 10) ∧
    (((processSubscriptionTweets sampleSub 10 (.ok sampleTU) (.ok [sampleTweet]) []
          sampleState).err = none →
        ∀ s ∈ (processSubscriptionTweets sampleSub 10 (.ok sampleTU) (.ok [sampleTweet]) []
            sampleState).state.subs,
          s.id = sampleSub.id →
            s.lastChecked = 10 ∧ sampleSub.lastChecked ≤ s.lastChecked ∧
            ∀ tl, (Except.ok (ε := TwError) [sampleTweet]) = .ok tl →
              ∀ t ∈ tl, t.created_at < s.lastChecked) ∧
      (∀ e, (processSubscriptionTweets sampleSub 10 (.ok sampleTU) (.ok [sampleTweet]) []
          sampleState).err = some e →
        (processSubscriptionTweets sampleSub 10 (.ok sampleTU) (.ok [sampleTweet]) []
          sampleState).state.subs = sampleState.subs ∧
        ∀ p ∈ sampleState.posts,
          p ∈ (processSubscriptionTweets sampleSub 10 (.ok sampleTU) (.ok [sampleTweet]) []
            sampleState).state.posts)) :=
  ⟨by decide,
   checkpoint_discipline sampleSub 10 (.ok sampleTU) (.ok [sampleTweet]) [] sampleState
     (by decide) (by intro tl h; cases h; decide)⟩

/-- A find over an append whose left part misses falls through to the
right part. -/
theorem find?_append_none {α : Type} (pr : α → Bool) {l1 : List α} (l2 : List α)
    (h : l1.find? pr = none) : (l1 ++ l2).find? pr = l2.find? pr := by
  induction l1 with
  | nil => rfl
  | cons a l ih =>
    cases hpa : pr a with
    | true => simp [List.find?, hpa] at h
    | false =>
      simp only [List.cons_append, List.find?, hpa] at h ⊢
      exact ih h

/-- C3 counterexample: a concurrent insert of the same remote id landing
between the existence check and the save makes the save fail with
DuplicateKey, and the run rethrows that error instead of skipping the
tweet: the rejection is fatal, contradicting the claimed absorption. -/
theorem duplicate_key_not_absorbed :
    (processSubscriptionTweets sampleSub 10 (.ok sampleTU) (.ok [sampleTweet])
        [[mkPost sampleSub sampleTU sampleTweet]] sampleState).err =
      some (.duplicateKey "t1") ∧
    ¬ (processSubscriptionTweets sampleSub 10 (.ok sampleTU) (.ok [sampleTweet])
        [[mkPost sampleSub sampleTU sampleTweet]] sampleState).err = none := by
  decide

/-- C3 amended: processSubscriptionTweets absorbs no error at all.
AccountNotFound, RateLimited and SourceUnavailable from resolution or
fetch are rethrown unchanged with the state untouched, and a DuplicateKey
rejection raised by a save, after a racing insert lands between the
existence check and that save, is rethrown as well, without advancing the
checkpoint; deduplication rests solely on the pre-insert existence check. -/
theorem error_propagation (sub : Subscription) (now : Nat) :
    (∀ (e : TwError) (tr : Except TwError (List Tweet)) (interf : List (List Post))
        (st : DbState),
      processSubscriptionTweets sub now (.error e) tr interf st = ⟨st, 0, some e⟩) ∧
    (∀ (e : TwError) (tu : TargetUser) (interf : List (List Post)) (st : DbState),
      processSubscriptionTweets sub now (.ok tu) (.error e) interf st = ⟨st, 0, some e⟩) ∧
    (∀ (tu : TargetUser) (t : Tweet) (p : Post) (st : DbState),
      sub.keywords = [] →
      findPostByTweetId st.posts t.id = none →
      p.tweetId = t.id →
      (processSubscriptionTweets sub now (.ok tu) (.ok [t]) [[p]] st).err =
          some (.duplicateKey t.id) ∧
      (processSubscriptionTweets sub now (.ok tu) (.ok [t]) [[p]] st).state.subs = st.subs) := by
  refine ⟨fun e tr interf st => rfl, fun e tu interf st => rfl, fun tu t p st hkw hfind hp => ?_⟩
  have hfound : findPostByTweetId (st.posts ++ [p]) (mkPost sub tu t).tweetId = some p := by
    show findPostByTweetId (st.posts ++ [p]) t.id = some p
    unfold findPostByTweetId at hfind ⊢
    rw [find?_append_none _ [p] hfind]
    simp [List.find?, hp]
  have hsave : savePost (st.posts ++ ([[p]] : List (List Post)).headD []) (mkPost sub tu t) =
      .error (.duplicateKey t.id) := by
    show savePost (st.posts ++ [p]) (mkPost sub tu t) = .error (.duplicateKey t.id)
    unfold savePost
    rw [hfound]
    rfl
  have hloop : (processTweetsLoop sub tu (keywordFilter sub.keywords [t]) [[p]]
      st.posts 0).err = some (.duplicateKey t.id) := by
    rw [hkw]
    show (processTweetsLoop sub tu [t] [[p]] st.posts 0).err = some (.duplicateKey t.id)
    rw [loop_cons_fail sub tu t [] [[p]] st.posts 0 hfind hsave]
  constructor
  · rw [reconcile_loop_err sub now tu [t] [[p]] st hloop]
  · rw [reconcile_loop_err sub now tu [t] [[p]] st hloop]

/-- Witness for the amended C3 at a concrete racing insert. -/
theorem error_propagation_witness :
    (sampleSub.keywords = []) ∧
    (findPostByTweetId sampleState.posts sampleTweet.id = none) ∧
    ((mkPost sampleSub sampleTU sampleTweet).tweetId = sampleTweet.id) ∧
    ((processSubscriptionTweets sampleSub 10 (.ok sampleTU) (.ok [sampleTweet])
        [[mkPost sampleSub sampleTU sampleTweet]] sampleState).err =
      some (.duplicateKey sampleTweet.id) ∧
     (processSubscriptionTweets sampleSub 10 (.ok sampleTU) (.ok [sampleTweet])
        [[mkPost sampleSub sampleTU sampleTweet]] sampleState).state.subs =
       sampleState.subs) :=
  ⟨rfl, rfl, rfl,
   (error_propagation sampleSub 10).2.2 sampleTU sampleTweet
     (mkPost sampleSub sampleTU sampleTweet) sampleState rfl rfl rfl⟩

/-- Without interference a run with working remote calls never throws. -/
theorem reconcile_nil_interf_no_err (sub : Subscription) (now : Nat) (tu : TargetUser)
    (tl : List Tweet) (st : DbState) :
    (processSubscriptionTweets sub now (.ok tu) (.ok tl) [] st).err = none := by
  rw [reconcile_nil_interf]

/-- Batch step for a due subscription whose run completes. -/
theorem batch_step_ok (now : Nat) (sub : Subscription) (rest : List Subscription)
    (o : Oracle) (os : List Oracle) (st : DbState) (processed newTweets : Nat)
    (errs : List String) (hdue : dueForCheck now sub = true)
    (herr : (processSubscriptionTweets sub now o.resolveResult o.timelineResult
      o.interf st).err = none) :
    processAllLoop now (sub :: rest) (o :: os) st processed newTweets errs =
      processAllLoop now rest os
        (processSubscriptionTweets sub now o.resolveResult o.timelineResult o.interf st).state
        (processed + 1)
        (newTweets + (processSubscriptionTweets sub now o.resolveResult o.timelineResult
          o.interf st).newTweetsCount)
        errs := by
  simp only [processAllLoop, hdue, if_true, List.headD_cons, List.tail_cons, herr]

/-- Batch step for a due subscription whose run throws: the error becomes
one recorded entry and the loop moves on to the remaining subscriptions. -/
theorem batch_step_err (now : Nat) (sub : Subscription) (rest : List Subscription)
    (o : Oracle) (os : List Oracle) (st : DbState) (processed newTweets : Nat)
    (errs : List String) {e : TwError} (hdue : dueForCheck now sub = true)
    (herr : (processSubscriptionTweets sub now o.resolveResult o.timelineResult
      o.interf st).err = some e) :
    processAllLoop now (sub :: rest) (o :: os) st processed newTweets errs =
      processAllLoop now rest os
        (processSubscriptionTweets sub now o.resolveResult o.timelineResult o.interf st).state
        processed newTweets
        (errs ++ [sub.targetUsername ++ ": " ++ errMsg e]) := by
  simp only [processAllLoop, hdue, if_true, List.headD_cons, List.tail_cons, herr]

/-- C4: batch resilience. With three due active subscriptions of the same
user where only the second fetch throws SourceUnavailable, the batch run
still reconciles the first and third subscription, so two runs are
processed, and the returned error list holds exactly one entry, naming
the second target. -/
theorem batch_resilience (uid now : Nat) (s1 s2 s3 : Subscription) (posts0 : List Post)
    (tu1 tu2 tu3 : TargetUser) (tl1 tl3 : List Tweet) (m : String)
    (h1u : s1.userId = uid) (h1a : s1.isActive = true) (h1d : dueForCheck now s1 = true)
    (h2u : s2.userId = uid) (h2a : s2.isActive = true) (h2d : dueForCheck now s2 = true)
    (h3u : s3.userId = uid) (h3a : s3.isActive = true) (h3d : dueForCheck now s3 = true) :
    (processAllUserSubscriptions uid now
        [⟨.ok tu1, .ok tl1, []⟩, ⟨.ok tu2, .error (.sourceUnavailable m), []⟩,
         ⟨.ok tu3, .ok tl3, []⟩] ⟨[s1, s2, s3], posts0⟩).errors =
      [s2.targetUsername ++ ": " ++ errMsg (.sourceUnavailable m)] ∧
    (processAllUserSubscriptions uid now
        [⟨.ok tu1, .ok tl1, []⟩, ⟨.ok tu2, .error (.sourceUnavailable m), []⟩,
         ⟨.ok tu3, .ok tl3, []⟩] ⟨[s1, s2, s3], posts0⟩).processed = 2 := by
  have hfilter : ([s1, s2, s3] : List Subscription).filter
      (fun s => s.userId == uid && s.isActive) = [s1, s2, s3] := by
    simp [List.filter, h1u, h1a, h2u, h2a, h3u, h3a]
  unfold processAllUserSubscriptions
  simp only [hfilter]
  rw [batch_step_ok now s1 [s2, s3] ⟨.ok tu1, .ok tl1, []⟩ _ _ 0 0 [] h1d
    (reconcile_nil_interf_no_err s1 now tu1 tl1 _)]
  rw [batch_step_err now s2 [s3] ⟨.ok tu2, .error (.sourceUnavailable m), []⟩ _ _ _ _ [] h2d
    (by rw [reconcile_fetch_err])]
  rw [batch_step_ok now s3 [] ⟨.ok tu3, .ok tl3, []⟩ _ _ _ _ _ h3d
    (reconcile_nil_interf_no_err s3 now tu3 tl3 _)]
  exact ⟨rfl, rfl⟩

/-- Witness for C4 at three concrete subscriptions. -/
theorem batch_resilience_witness :
    (sampleSub.userId = 1 ∧ sampleSub.isActive = true ∧
      dueForCheck 4000000 sampleSub = true ∧
     sampleSub2.userId = 1 ∧ sampleSub2.isActive = true ∧
      dueForCheck 4000000 sampleSub2 = true ∧
     sampleSub3.userId = 1 ∧ sampleSub3.isActive = true ∧
      dueForCheck 4000000 sampleSub3 = true) ∧
    ((processAllUserSubscriptions 1 4000000
        [⟨.ok sampleTU, .ok [sampleTweet], []⟩,
         ⟨.ok sampleTU, .error (.sourceUnavailable "boom"), []⟩,
         ⟨.ok sampleTU, .ok [], []⟩]
        ⟨[sampleSub, sampleSub2, sampleSub3], []⟩).errors =
      [sampleSub2.targetUsername ++ ": " ++ errMsg (.sourceUnavailable "boom")] ∧
     (processAllUserSubscriptions 1 4000000
        [⟨.ok sampleTU, .ok [sampleTweet], []⟩,
         ⟨.ok sampleTU, .error (.sourceUnavailable "boom"), []⟩,
         ⟨.ok sampleTU, .ok [], []⟩]
        ⟨[sampleSub, sampleSub2, sampleSub3], []⟩).processed = 2) :=
  ⟨by decide,
   batch_resilience 1 4000000 sampleSub sampleSub2 sampleSub3 [] sampleTU sampleTU sampleTU
     [sampleTweet] [] "boom" rfl rfl (by decide) rfl rfl (by decide) rfl rfl (by decide)⟩

/-- C5: keyword filter correctness. With a non-empty keyword list a
fetched tweet is kept exactly when its text contains some keyword as a
case-insensitive substring; with an empty keyword list every fetched
tweet is kept. -/
theorem keyword_filter_correct (ks : List String) (tl : List Tweet) :
    (ks ≠ [] → ∀ t : Tweet, t ∈ keywordFilter ks tl ↔
        t ∈ tl ∧ ∃ k ∈ ks, (lowerStr k).data <:+: (lowerStr t.text).data) ∧
    (ks = [] → keywordFilter ks tl = tl) := by
  constructor
  · intro hne t
    have hlen : 0 < ks.length := List.length_pos.mpr hne
    unfold keywordFilter
    rw [if_pos hlen, List.mem_filter]
    constructor
    · rintro ⟨htl, hm⟩
      refine ⟨htl, ?_⟩
      obtain ⟨k, hk, hck⟩ := List.any_eq_true.mp hm
      simp only [containsCI, decide_eq_true_eq] at hck
      exact ⟨k, hk, hck⟩
    · rintro ⟨htl, k, hk, hsub⟩
      refine ⟨htl, List.any_eq_true.mpr ⟨k, hk, ?_⟩⟩
      simp only [containsCI, decide_eq_true_eq]
      exact hsub
  · intro h
    subst h
    rfl

/-- Witness for C5: a tweet containing the keyword in capitals is kept. -/
theorem keyword_filter_correct_witness :
    ((["launch"] : List String) ≠ []) ∧
    (launchTweet ∈ keywordFilter ["launch"] [launchTweet, sampleTweet] ↔
      launchTweet ∈ [launchTweet, sampleTweet] ∧
      ∃ k ∈ (["launch"] : List String),
        (lowerStr k).data <:+: (lowerStr launchTweet.text).data) :=
  ⟨by decide, (keyword_filter_correct ["launch"] [launchTweet, sampleTweet]).1
    (by decide) launchTweet⟩

/-- C6 counterexample: with includeReplies = false the run still stores a
fetched tweet whose reference list marks it replied_to; there is no
storage-side exclusion, contradicting the claimed defense in depth. -/
theorem reply_not_excluded_from_storage :
    sampleSub.includeReplies = false ∧
    (replyTweet.referenced_tweets.any (fun r => r.type == "replied_to")) = true ∧
    (processSubscriptionTweets sampleSub 10 (.ok sampleTU) (.ok [replyTweet]) []
        sampleState).newTweetsCount = 1 ∧
    (processSubscriptionTweets sampleSub 10 (.ok sampleTU) (.ok [replyTweet]) []
        sampleState).state.posts.map (fun p => p.tweetId) = ["r1"] := by
  decide

/-- C6 amended: the reply and retweet exclusion flags act only on the
fetch request: the exclude list sent to the source names replies exactly
when includeReplies is false and retweets exactly when includeRetweets is
false; a reply or retweet returned by the source anyway is not excluded
from storage: it is stored and merely classified through the isReply and
isRetweet fields computed from its reference list. -/
theorem exclusion_request_only (sub : Subscription) (now : Nat) (tu : TargetUser)
    (t : Tweet) (st : DbState)
    (hkw : sub.keywords = [])
    (hfind : findPostByTweetId st.posts t.id = none) :
    ("replies" ∈ excludeTypes sub.includeReplies sub.includeRetweets ↔
        sub.includeReplies = false) ∧
    ("retweets" ∈ excludeTypes sub.includeReplies sub.includeRetweets ↔
        sub.includeRetweets = false) ∧
    ((processSubscriptionTweets sub now (.ok tu) (.ok [t]) [] st).newTweetsCount = 1 ∧
      ∃ p ∈ (processSubscriptionTweets sub now (.ok tu) (.ok [t]) [] st).state.posts,
        p.tweetId = t.id ∧
        p.isReply = t.referenced_tweets.any (fun r => r.type == "replied_to") ∧
        p.isRetweet = t.referenced_tweets.any (fun r => r.type == "retweeted")) := by
  refine ⟨?_, ?_, ?_⟩
  · cases h1 : sub.includeReplies <;> cases h2 : sub.includeRetweets <;>
      simp [excludeTypes, h1, h2]
  · cases h1 : sub.includeReplies <;> cases h2 : sub.includeRetweets <;>
      simp [excludeTypes, h1, h2]
  · have hsave : savePost (st.posts ++ ([] : List (List Post)).headD [])
        (mkPost sub tu t) = .ok (st.posts ++ [mkPost sub tu t]) := by
      simp only [List.headD_nil, List.append_nil]
      exact savePost_none (p := mkPost sub tu t) hfind
    have hloop : processTweetsLoop sub tu (keywordFilter sub.keywords [t]) [] st.posts 0 =
        ⟨st.posts ++ [mkPost sub tu t], 1, none⟩ := by
      rw [hkw]
      show processTweetsLoop sub tu [t] [] st.posts 0 = _
      rw [loop_cons_new sub tu t [] [] st.posts 0 hfind hsave]
      rfl
    rw [reconcile_loop_ok sub now tu [t] [] st (by rw [hloop])]
    rw [hloop]
    exact ⟨rfl, mkPost sub tu t,
      List.mem_append_right st.posts (List.mem_singleton.mpr rfl), rfl, rfl, rfl⟩

/-- Witness for the amended C6 at a concrete reply tweet. -/
theorem exclusion_request_only_witness :
    (sampleSub.keywords = []) ∧
    (findPostByTweetId sampleState.posts replyTweet.id = none) ∧
    (("replies" ∈ excludeTypes sampleSub.includeReplies sampleSub.includeRetweets ↔
        sampleSub.includeReplies = false) ∧
     ("retweets" ∈ excludeTypes sampleSub.includeReplies sampleSub.includeRetweets ↔
        sampleSub.includeRetweets = false) ∧
     ((processSubscriptionTweets sampleSub 10 (.ok sampleTU) (.ok [replyTweet]) []
          sampleState).newTweetsCount = 1 ∧
       ∃ p ∈ (processSubscriptionTweets sampleSub 10 (.ok sampleTU) (.ok [replyTweet]) []
          sampleState).state.posts,
         p.tweetId = replyTweet.id ∧
         p.isReply = replyTweet.referenced_tweets.any (fun r => r.type == "replied_to") ∧
         p.isRetweet = replyTweet.referenced_tweets.any (fun r => r.type == "retweeted"))) :=
  ⟨rfl, rfl, exclusion_request_only sampleSub 10 sampleTU replyTweet sampleState rfl rfl⟩

/-- Key-preserving updates keep the pairwise uniqueness of the user and
target pair. -/
theorem subsUnique_map (l : List Subscription) (f : Subscription → Subscription)
    (hf : ∀ s, (f s).userId = s.userId ∧ (f s).targetUsername = s.targetUsername)
    (h : l.Pairwise fun a b => ¬ subKeyClash a b) :
    (l.map f).Pairwise (fun a b => ¬ subKeyClash a b) := by
  rw [List.pairwise_map]
  refine h.imp ?_
  intro a b hab hc
  have h1 : a.userId = b.userId := by rw [← (hf a).1, hc.1, (hf b).1]
  have h2 : a.targetUsername = b.targetUsername := by rw [← (hf a).2, hc.2, (hf b).2]
  exact hab ⟨h1, h2⟩

/-- Interval-preserving updates keep the checkInterval bounds. -/
theorem intervalBounded_map (l : List Subscription) (f : Subscription → Subscription)
    (hf : ∀ s, 15 ≤ s.checkInterval ∧ s.checkInterval ≤ 1440 →
      15 ≤ (f s).checkInterval ∧ (f s).checkInterval ≤ 1440)
    (h : ∀ s ∈ l, 15 ≤ s.checkInterval ∧ s.checkInterval ≤ 1440) :
    ∀ s ∈ l.map f, 15 ≤ s.checkInterval ∧ s.checkInterval ≤ 1440 := by
  intro s hs
  obtain ⟨s0, hs0, rfl⟩ := List.mem_map.mp hs
  exact hf s0 (h s0 hs0)

/-- A validated optional checkInterval defaults into the schema bounds. -/
theorem validCheckInterval_getD {o : Option Nat} (h : validCheckInterval o = true) :
    15 ≤ o.getD 60 ∧ o.getD 60 ≤ 1440 := by
  cases o with
  | none => exact ⟨by norm_num, by norm_num⟩
  | some ci =>
    simp only [validCheckInterval, Bool.and_eq_true, decide_eq_true_eq] at h
    simpa using h

/-- Subscription creation preserves the subscription invariants. -/
theorem create_preserves_inv {st st2 : DbState} {uid newId now : Nat} {req : CreateReq}
    (hok : createSubscription st uid newId now req = .ok st2)
    (hu : SubsUnique st) (hb : IntervalBounded st) :
    SubsUnique st2 ∧ IntervalBounded st2 := by
  unfold createSubscription at hok
  split at hok
  next => simp at hok
  next h1 =>
  split at hok
  next => simp at hok
  next h2 =>
  have h2t : validCheckInterval req.checkInterval = true := by
    cases hvb : validCheckInterval req.checkInterval
    · exact absurd hvb h2
    · rfl
  have hci := validCheckInterval_getD h2t
  split at hok
  next ex hf =>
    split at hok
    next => simp at hok
    next hact =>
      injection hok with h3
      subst h3
      constructor
      · exact subsUnique_map _ _
          (fun s => by split <;> exact ⟨rfl, rfl⟩) hu
      · exact intervalBounded_map _ _
          (fun s hs => by split <;> [exact hci; exact hs]) hb
  next hf =>
    injection hok with h3
    subst h3
    have hnew := List.find?_eq_none.mp hf
    constructor
    · show (st.subs ++ [_]).Pairwise fun a b => ¬ subKeyClash a b
      rw [List.pairwise_append]
      refine ⟨hu, List.pairwise_singleton _ _, ?_⟩
      intro a ha b hb2 hc
      rw [List.mem_singleton] at hb2
      subst hb2
      have := hnew a ha
      apply this
      simp only [Bool.and_eq_true, beq_iff_eq]
      exact ⟨hc.1, hc.2⟩
    · intro s hs
      rcases List.mem_append.mp hs with hmem | hmem
      · exact hb s hmem
      · rw [List.mem_singleton] at hmem
        subst hmem
        exact hci

/-- Soft deletion preserves the subscription invariants. -/
theorem delete_preserves_inv {st st2 : DbState} {uid sid : Nat}
    (hok : deleteSubscription st uid sid = .ok st2)
    (hu : SubsUnique st) (hb : IntervalBounded st) :
    SubsUnique st2 ∧ IntervalBounded st2 := by
  unfold deleteSubscription at hok
  split at hok
  next => simp at hok
  next q hf =>
    injection hok with h3
    subst h3
    constructor
    · exact subsUnique_map _ _
        (fun s => by unfold deactivateIf; split <;> exact ⟨rfl, rfl⟩) hu
    · exact intervalBounded_map _ _
        (fun s hs => by unfold deactivateIf; split <;> exact hs) hb

/-- The checkpoint update preserves the subscription invariants. -/
theorem updateLastChecked_preserves_inv {subs : List Subscription} {posts : List Post}
    (sid now : Nat) (hu : SubsUnique ⟨subs, posts⟩) (hb : IntervalBounded ⟨subs, posts⟩) :
    ∀ (posts2 : List Post), SubsUnique ⟨updateLastChecked subs sid now, posts2⟩ ∧
      IntervalBounded ⟨updateLastChecked subs sid now, posts2⟩ := by
  intro posts2
  constructor
  · exact subsUnique_map _ _ (fun s => by split <;> exact ⟨rfl, rfl⟩) hu
  · exact intervalBounded_map _ _ (fun s hs => by split <;> exact hs) hb

/-- One reconciliation run preserves the subscription invariants. -/
theorem reconcile_preserves_inv (sub : Subscription) (now : Nat)
    (rr : Except TwError TargetUser) (tr : Except TwError (List Tweet))
    (interf : List (List Post)) (st : DbState)
    (hu : SubsUnique st) (hb : IntervalBounded st) :
    SubsUnique (processSubscriptionTweets sub now rr tr interf st).state ∧
    IntervalBounded (processSubscriptionTweets sub now rr tr interf st).state := by
  cases rr with
  | error e => exact ⟨hu, hb⟩
  | ok tu =>
    cases tr with
    | error e => exact ⟨hu, hb⟩
    | ok tl =>
      cases herr : (processTweetsLoop sub tu (keywordFilter sub.keywords tl) interf
          st.posts 0).err with
      | some e =>
        rw [reconcile_loop_err sub now tu tl interf st herr]
        exact ⟨hu, hb⟩
      | none =>
        rw [reconcile_loop_ok sub now tu tl interf st herr]
        exact updateLastChecked_preserves_inv sub.id now hu hb _

/-- The batch loop preserves the subscription invariants. -/
theorem batchLoop_preserves_inv (now : Nat) :
    ∀ (subs : List Subscription) (oracles : List Oracle) (st : DbState) (p n : Nat)
      (errs : List String), SubsUnique st → IntervalBounded st →
      SubsUnique (processAllLoop now subs oracles st p n errs).state ∧
      IntervalBounded (processAllLoop now subs oracles st p n errs).state := by
  intro subs
  induction subs with
  | nil => intro oracles st p n errs hu hb; exact ⟨hu, hb⟩
  | cons sub rest ih =>
    intro oracles st p n errs hu hb
    simp only [processAllLoop]
    split
    · split
      · exact ih _ _ _ _ _
          (reconcile_preserves_inv sub now _ _ _ st hu hb).1
          (reconcile_preserves_inv sub now _ _ _ st hu hb).2
      · exact ih _ _ _ _ _
          (reconcile_preserves_inv sub now _ _ _ st hu hb).1
          (reconcile_preserves_inv sub now _ _ _ st hu hb).2
    · exact ih _ _ _ _ _ hu hb

/-- Creating over an existing pair never inserts: when the pair is active
the request fails, otherwise the existing record is updated in place. -/
theorem create_existing_pair {st : DbState} (hu : SubsUnique st)
    (uid newId now : Nat) (req : CreateReq) (s : Subscription)
    (hs : s ∈ st.subs) (hsu : s.userId = uid)
    (hst : s.targetUsername = normalizeUsername req.targetUsername) :
    (s.isActive = true → ∀ st2, createSubscription st uid newId now req ≠ .ok st2) ∧
    (∀ st2, createSubscription st uid newId now req = .ok st2 →
      st2.subs.length = st.subs.length) := by
  have hpred : (fun x : Subscription =>
      x.userId == uid && x.targetUsername == normalizeUsername req.targetUsername) s = true := by
    simp only [Bool.and_eq_true, beq_iff_eq]
    exact ⟨hsu, hst⟩
  have hsame : ∀ ex, st.subs.find? (fun x =>
      x.userId == uid && x.targetUsername == normalizeUsername req.targetUsername) = some ex →
      ex = s := by
    intro ex hex2
    have hexm := List.mem_of_find?_eq_some hex2
    have hexp := List.find?_some hex2
    simp only [Bool.and_eq_true, beq_iff_eq] at hexp
    have hclash : subKeyClash ex s := ⟨hexp.1.trans hsu.symm, hexp.2.trans hst.symm⟩
    have hsymm : Symmetric (fun a b : Subscription => ¬ subKeyClash a b) := by
      intro a b hab hc
      exact hab ⟨hc.1.symm, hc.2.symm⟩
    by_contra hne
    exact absurd hclash (List.Pairwise.forall hsymm hu hexm hs hne)
  constructor
  · intro hact st2 hok
    unfold createSubscription at hok
    split at hok
    next => simp at hok
    split at hok
    next => simp at hok
    split at hok
    next ex hex2 =>
      have hexs := hsame ex hex2
      subst hexs
      split at hok
      next => simp at hok
      next hact2 => exact hact2 hact
    next hnone =>
      exact absurd hpred (List.find?_eq_none.mp hnone s hs)
  · intro st2 hok
    unfold createSubscription at hok
    split at hok
    next => simp at hok
    split at hok
    next => simp at hok
    split at hok
    next ex hex2 =>
      split at hok
      next => simp at hok
      next hact2 =>
        injection hok with h3
        subst h3
        exact List.length_map _ _
    next hnone =>
      exact absurd hpred (List.find?_eq_none.mp hnone s hs)

/-- C7: subscription invariants. In every reachable store state there is
at most one subscription per user and target pair and every stored
checkInterval lies within 15 and 1440 minutes; moreover creating over a
pair that already has a subscription fails when that subscription is
active and otherwise reactivates it in place, inserting nothing. -/
theorem subscription_invariants (st : DbState) (h : Reachable st) :
    (SubsUnique st ∧ IntervalBounded st) ∧
    (∀ (uid newId now : Nat) (req : CreateReq) (s : Subscription),
      s ∈ st.subs → s.userId = uid →
      s.targetUsername = normalizeUsername req.targetUsername →
      (s.isActive = true → ∀ st2, createSubscription st uid newId now req ≠ .ok st2) ∧
      (∀ st2, createSubscription st uid newId now req = .ok st2 →
        st2.subs.length = st.subs.length)) := by
  have hinv : SubsUnique st ∧ IntervalBounded st := by
    induction h with
    | init => exact ⟨List.Pairwise.nil, by intro s hs; simp at hs⟩
    | create st st2 uid newId now req hr hok ih =>
      exact create_preserves_inv hok ih.1 ih.2
    | softDelete st st2 uid sid hr hok ih =>
      exact delete_preserves_inv hok ih.1 ih.2
    | reconcile st sub now rr tr interf hr ih =>
      exact reconcile_preserves_inv sub now rr tr interf st ih.1 ih.2
    | batch st uid now oracles hr ih =>
      exact batchLoop_preserves_inv now _ oracles st 0 0 [] ih.1 ih.2
  exact ⟨hinv, fun uid newId now req s hs hsu hst =>
    create_existing_pair hinv.1 uid newId now req s hs hsu hst⟩

/-- Witness for C7 at a concrete reachable state with one subscription. -/
theorem subscription_invariants_witness :
    Reachable sampleState ∧
    ((SubsUnique sampleState ∧ IntervalBounded sampleState) ∧
     (∀ (uid newId now : Nat) (req : CreateReq) (s : Subscription),
       s ∈ sampleState.subs → s.userId = uid →
       s.targetUsername = normalizeUsername req.targetUsername →
       (s.isActive = true →
         ∀ st2, createSubscription sampleState uid newId now req ≠ .ok st2) ∧
       (∀ st2, createSubscription sampleState uid newId now req = .ok st2 →
         st2.subs.length = sampleState.subs.length))) := by
  have hr : Reachable sampleState := by
    have h0 : createSubscription ⟨[], []⟩ 1 1 0 ⟨"acme", none, none, none, none⟩ =
        .ok sampleState := by rfl
    exact Reachable.create ⟨[], []⟩ sampleState 1 1 0 ⟨"acme", none, none, none, none⟩
      Reachable.init h0
  exact ⟨hr, subscription_invariants sampleState hr⟩

/-- C8: soft delete and reactivation. A successful deletion keeps the
post collection and every subscription record in place and in order,
changing nothing but the active flag of the matched record, which becomes
false — no record is removed; a repeat create over an existing inactive
pair keeps the post collection and the record count and updates that
record in place: active again, interval, keywords and both inclusion
flags reset to the supplied or default values, checkpoint reset to the
current time. -/
theorem soft_delete_reactivation :
    (∀ (st st2 : DbState) (uid sid : Nat),
      deleteSubscription st uid sid = .ok st2 →
      st2.posts = st.posts ∧ st2.subs.length = st.subs.length ∧
      List.Forall₂ (fun a b : Subscription =>
        b.id = a.id ∧ b.userId = a.userId ∧ b.targetUsername = a.targetUsername ∧
        b.checkInterval = a.checkInterval ∧ b.lastChecked = a.lastChecked ∧
        b.keywords = a.keywords ∧ b.includeReplies = a.includeReplies ∧
        b.includeRetweets = a.includeRetweets ∧
        b.isActive = (if a.id = sid ∧ a.userId = uid then false else a.isActive))
        st.subs st2.subs) ∧
    (∀ (st st2 : DbState) (uid newId now : Nat) (req : CreateReq) (s : Subscription),
      SubsUnique st → s ∈ st.subs → s.userId = uid →
      s.targetUsername = normalizeUsername req.targetUsername → s.isActive = false →
      createSubscription st uid newId now req = .ok st2 →
      st2.posts = st.posts ∧ st2.subs.length = st.subs.length ∧
      ∃ s2 ∈ st2.subs, s2.id = s.id ∧ s2.userId = s.userId ∧
        s2.targetUsername = s.targetUsername ∧ s2.isActive = true ∧
        s2.checkInterval = req.checkInterval.getD 60 ∧
        s2.keywords = req.keywords.getD [] ∧
        s2.includeReplies = req.includeReplies.getD false ∧
        s2.includeRetweets = req.includeRetweets.getD false ∧
        s2.lastChecked = now) := by
  constructor
  · intro st st2 uid sid hok
    unfold deleteSubscription at hok
    split at hok
    next => simp at hok
    next q hf =>
      injection hok with h3
      subst h3
      refine ⟨rfl, by simp, ?_⟩
      show List.Forall₂ _ st.subs (st.subs.map (deactivateIf uid sid))
      rw [List.forall₂_map_right_iff, List.forall₂_same]
      intro x _
      unfold deactivateIf
      by_cases hcond : (x.id == sid && x.userId == uid) = true
      · rw [if_pos hcond]
        simp only [Bool.and_eq_true, beq_iff_eq] at hcond
        exact ⟨rfl, rfl, rfl, rfl, rfl, rfl, rfl, rfl, (if_pos hcond).symm⟩
      · rw [if_neg hcond]
        simp only [Bool.and_eq_true, beq_iff_eq] at hcond
        exact ⟨rfl, rfl, rfl, rfl, rfl, rfl, rfl, rfl, (if_neg hcond).symm⟩
  · intro st st2 uid newId now req s hu hs hsu hst hsact hok
    have hsame : ∀ ex, st.subs.find? (fun x =>
        x.userId == uid && x.targetUsername == normalizeUsername req.targetUsername) =
          some ex → ex = s := by
      intro ex hex2
      have hexm := List.mem_of_find?_eq_some hex2
      have hexp := List.find?_some hex2
      simp only [Bool.and_eq_true, beq_iff_eq] at hexp
      have hclash : subKeyClash ex s := ⟨hexp.1.trans hsu.symm, hexp.2.trans hst.symm⟩
      have hsymm : Symmetric (fun a b : Subscription => ¬ subKeyClash a b) := by
        intro a b hab hc
        exact hab ⟨hc.1.symm, hc.2.symm⟩
      by_contra hne
      exact absurd hclash (List.Pairwise.forall hsymm hu hexm hs hne)
    unfold createSubscription at hok
    split at hok
    next => simp at hok
    split at hok
    next => simp at hok
    split at hok
    next ex hex2 =>
      have hexs := hsame ex hex2
      subst hexs
      split at hok
      next hact => rw [hsact] at hact; exact absurd hact (by simp)
      next hact =>
        injection hok with h3
        subst h3
        refine ⟨rfl, by simp, ?_⟩
        refine ⟨reactivate now (req.checkInterval.getD 60) (req.keywords.getD [])
          (req.includeReplies.getD false) (req.includeRetweets.getD false) ex, ?_, ?_⟩
        · show _ ∈ st.subs.map _
          refine List.mem_map.mpr ⟨ex, hs, ?_⟩
          rw [if_pos (beq_self_eq_true ex.id)]
        · exact ⟨rfl, rfl, rfl, rfl, rfl, rfl, rfl, rfl, rfl⟩
    next hnone =>
      have hpred : (fun x : Subscription =>
          x.userId == uid && x.targetUsername == normalizeUsername req.targetUsername) s
            = true := by
        simp only [Bool.and_eq_true, beq_iff_eq]
        exact ⟨hsu, hst⟩
      exact absurd hpred (List.find?_eq_none.mp hnone s hs)

/-- Witness for C8: deletion of the active record and reactivation of the
soft-deleted record in a concrete two-subscription store. -/
theorem soft_delete_reactivation_witness :
    (deleteSubscription sampleStateMixed 1 1 =
      .ok ⟨[⟨1, 1, "acme", false, 60, 0, [], false, false⟩, inactiveSub], []⟩ ∧
     ((⟨[⟨1, 1, "acme", false, 60, 0, [], false, false⟩, inactiveSub], []⟩ : DbState).posts =
        sampleStateMixed.posts ∧
      (⟨[⟨1, 1, "acme", false, 60, 0, [], false, false⟩, inactiveSub], []⟩ : DbState).subs.length =
        sampleStateMixed.subs.length ∧
      List.Forall₂ (fun a b : Subscription =>
        b.id = a.id ∧ b.userId = a.userId ∧ b.targetUsername = a.targetUsername ∧
        b.checkInterval = a.checkInterval ∧ b.lastChecked = a.lastChecked ∧
        b.keywords = a.keywords ∧ b.includeReplies = a.includeReplies ∧
        b.includeRetweets = a.includeRetweets ∧
        b.isActive = (if a.id = 1 ∧ a.userId = 1 then false else a.isActive))
        sampleStateMixed.subs
        (⟨[⟨1, 1, "acme", false, 60, 0, [], false, false⟩, inactiveSub], []⟩ : DbState).subs)) ∧
    (createSubscription sampleStateMixed 1 9 99 ⟨"beta", some 30, some ["x"], some true,
        some false⟩ =
      .ok ⟨[sampleSub, ⟨2, 1, "beta", true, 30, 99, ["x"], true, false⟩], []⟩ ∧
     ((⟨[sampleSub, ⟨2, 1, "beta", true, 30, 99, ["x"], true, false⟩], []⟩ : DbState).posts =
        sampleStateMixed.posts ∧
      (⟨[sampleSub, ⟨2, 1, "beta", true, 30, 99, ["x"], true, false⟩], []⟩ : DbState).subs.length =
        sampleStateMixed.subs.length ∧
      ∃ s2 ∈ (⟨[sampleSub, ⟨2, 1, "beta", true, 30, 99, ["x"], true, false⟩], []⟩
          : DbState).subs,
        s2.id = inactiveSub.id ∧ s2.userId = inactiveSub.userId ∧
        s2.targetUsername = inactiveSub.targetUsername ∧ s2.isActive = true ∧
        s2.checkInterval = (some 30).getD 60 ∧
        s2.keywords = (some ["x"]).getD [] ∧
        s2.includeReplies = (some true).getD false ∧
        s2.includeRetweets = (some false).getD false ∧
        s2.lastChecked = 99)) := by
  have hdel : deleteSubscription sampleStateMixed 1 1 =
      .ok ⟨[⟨1, 1, "acme", false, 60, 0, [], false, false⟩, inactiveSub], []⟩ := by rfl
  have hcre : createSubscription sampleStateMixed 1 9 99 ⟨"beta", some 30, some ["x"],
      some true, some false⟩ =
      .ok ⟨[sampleSub, ⟨2, 1, "beta", true, 30, 99, ["x"], true, false⟩], []⟩ := by rfl
  refine ⟨⟨hdel, soft_delete_reactivation.1 sampleStateMixed _ 1 1 hdel⟩,
          ⟨hcre, soft_delete_reactivation.2 sampleStateMixed _ 1 9 99
            ⟨"beta", some 30, some ["x"], some true, some false⟩ inactiveSub
            (by decide) (by decide) rfl (by rfl) rfl hcre⟩⟩

/-- Without interference, every post present after the loop was already
stored or is the Post document built for some tweet. -/
theorem loop_posts_chars (sub : Subscription) (tu : TargetUser) :
    ∀ (ts : List Tweet) (posts : List Post) (c : Nat),
      ∀ p ∈ (processTweetsLoop sub tu ts [] posts c).posts,
        p ∈ posts ∨ ∃ t, p = mkPost sub tu t := by
  intro ts
  induction ts with
  | nil => intro posts c p hp; exact Or.inl hp
  | cons t ts ih =>
    intro posts c p hp
    cases hfind : findPostByTweetId posts t.id with
    | some q =>
      rw [loop_cons_found sub tu t ts [] posts c hfind] at hp
      simp only [List.tail_nil, List.headD_nil, List.append_nil] at hp
      exact ih posts c p hp
    | none =>
      have hsave : savePost (posts ++ ([] : List (List Post)).headD [])
          (mkPost sub tu t) = .ok (posts ++ [mkPost sub tu t]) := by
        simp only [List.headD_nil, List.append_nil]
        exact savePost_none (p := mkPost sub tu t) hfind
      rw [loop_cons_new sub tu t ts [] posts c hfind hsave] at hp
      simp only [List.tail_nil] at hp
      rcases ih (posts ++ [mkPost sub tu t]) (c + 1) p hp with h | h
      · rcases List.mem_append.mp h with h2 | h2
        · exact Or.inl h2
        · exact Or.inr ⟨t, List.mem_singleton.mp h2⟩
      · exact Or.inr h

/-- C9: attribution of stored posts. With no interference, every post the
run adds to the store records the case-normalized target username of the
subscription as authorUsername — the remote author identifier of the
fetched tweet plays no role, so replies or retweets authored elsewhere
are still filed under the monitored handle — and copies subscriptionId
and userId from the subscription. -/
theorem stored_post_attribution (sub : Subscription) (now : Nat) (tu : TargetUser)
    (tr : Except TwError (List Tweet)) (st : DbState) :
    ∀ p ∈ (processSubscriptionTweets sub now (.ok tu) tr [] st).state.posts,
      p ∈ st.posts ∨
        (p.authorUsername = normalizeUsername sub.targetUsername ∧
         p.subscriptionId = sub.id ∧ p.userId = sub.userId) := by
  intro p hp
  cases tr with
  | error e =>
    rw [reconcile_fetch_err sub now tu e [] st] at hp
    exact Or.inl hp
  | ok tl =>
    rw [reconcile_nil_interf sub now tu tl st] at hp
    rcases loop_posts_chars sub tu (keywordFilter sub.keywords tl) st.posts 0 p hp with h | h
    · exact Or.inl h
    · obtain ⟨t, rfl⟩ := h
      exact Or.inr ⟨rfl, rfl, rfl⟩

/-- Witness for C9: the concrete stored post carries the attribution. -/
theorem stored_post_attribution_witness :
    (mkPost sampleSub sampleTU sampleTweet ∈
      (processSubscriptionTweets sampleSub 10 (.ok sampleTU) (.ok [sampleTweet]) []
        sampleState).state.posts) ∧
    (mkPost sampleSub sampleTU sampleTweet ∈ sampleState.posts ∨
      ((mkPost sampleSub sampleTU sampleTweet).authorUsername =
          normalizeUsername sampleSub.targetUsername ∧
       (mkPost sampleSub sampleTU sampleTweet).subscriptionId = sampleSub.id ∧
       (mkPost sampleSub sampleTU sampleTweet).userId = sampleSub.userId)) :=
  ⟨by decide,
   stored_post_attribution sampleSub 10 sampleTU (.ok [sampleTweet]) sampleState
     (mkPost sampleSub sampleTU sampleTweet) (by decide)⟩

/-- The public JSON of a user document, computed. -/
theorem userToJSON_eq (u : User) :
    userToJSON u = [("_id", JVal.num u.id), ("email", JVal.str u.email),
      ("isActive", JVal.bool u.isActive),
      ("twitterUsername", optionToJVal JVal.str u.twitterUsername)] := rfl

/-- C10: the toJSON transform hides the secrets. The serialized user
object contains neither the password key nor the twitterCredentials key,
whatever their stored values, and two users differing only in password or
credentials serialize to identical public JSON. -/
theorem user_json_hides_secrets :
    (∀ u : User, "password" ∉ (userToJSON u).map Prod.fst ∧
      "twitterCredentials" ∉ (userToJSON u).map Prod.fst) ∧
    (∀ u1 u2 : User, u1.id = u2.id → u1.email = u2.email → u1.isActive = u2.isActive →
      u1.twitterUsername = u2.twitterUsername → userToJSON u1 = userToJSON u2) := by
  constructor
  · intro u
    rw [userToJSON_eq u]
    constructor <;> · intro hmem; simp at hmem
  · intro u1 u2 h1 h2 h3 h4
    rw [userToJSON_eq u1, userToJSON_eq u2, h1, h2, h3, h4]

/-- Witness for C10: two users sharing the public fields but with
different passwords and credentials serialize identically. -/
theorem user_json_hides_secrets_witness :
    ((7 : Nat) = 7 ∧ "a@b.c" = "a@b.c" ∧ true = true ∧
      some "acme" = some "acme") ∧
    userToJSON ⟨7, "a@b.c", "hunter2", true, some "acme",
        some ⟨"k1", "k2", "k3", "k4"⟩⟩ =
      userToJSON ⟨7, "a@b.c", "different", true, some "acme", none⟩ :=
  ⟨⟨rfl, rfl, rfl, rfl⟩,
   user_json_hides_secrets.2 ⟨7, "a@b.c", "hunter2", true, some "acme",
       some ⟨"k1", "k2", "k3", "k4"⟩⟩ ⟨7, "a@b.c", "different", true, some "acme", none⟩
     rfl rfl rfl rfl⟩

end SubRecon
